import Mathlib

/-!
Verification development for the nvidia-transcribe repository.

The definitions below are a shallow embedding of the asynchronous
job-lifecycle subsystem of the REST transcription server
(src/scenario4/server/app.py) and of the SRT-output helpers of the
standalone CLI variants (src/transcribe.py, src/scenario3/transcribe.py).
Machine floats of the CLI arithmetic are modelled with exact rationals;
timestamps (datetime.now().isoformat()) are modelled as opaque strings
supplied by the environment.
-/

namespace NvidiaTranscribe

/-- The `JobStatus` string enum of app.py (lines 100-106). -/
inductive JobStatus where
  | pending
  | processing
  | completed
  | failed
  | cancelled
deriving DecidableEq, Repr

/-- The string value of a `JobStatus` member (the `str` mixin value used
when the member is rendered inside an f-string). -/
def JobStatus.value : JobStatus → String
  | .pending => "pending"
  | .processing => "processing"
  | .completed => "completed"
  | .failed => "failed"
  | .cancelled => "cancelled"

/-- A dynamically typed value appearing in a segment slot: the Python code
copies segment start/end/text values through without interpreting them, so
we model them as either a number or a string.  Numeric values (floats in
Python) are modelled as integers since the server never computes on them. -/
inductive SegVal where
  | num (n : Int)
  | str (s : String)
deriving DecidableEq, Repr

/-- A canonical segment dict produced by the output-shape normalisation in
`process_transcription_job` (app.py lines 344-358): keys start, end, text.
The field modelling the Python key `end` is named `stop` because `end` is a
Lean keyword. -/
structure Segment where
  start : SegVal
  stop : SegVal
  text : SegVal
deriving DecidableEq, Repr

/-- The `TranscriptionResponse` pydantic model (app.py lines 127-134). -/
structure TranscriptionResponse where
  text : String
  segments : List Segment
  filename : String
  timestamp : String
  model : String
  language : Option String
deriving DecidableEq, Repr

/-- The `JobInfo` pydantic model (app.py lines 109-117). -/
structure JobInfo where
  job_id : String
  status : JobStatus
  filename : String
  created_at : String
  completed_at : Option String
  error : Option String
  result : Option TranscriptionResponse
deriving DecidableEq, Repr

/-- The `JobStartResponse` pydantic model (app.py lines 120-124). -/
structure JobStartResponse where
  job_id : String
  status : JobStatus
  message : String
deriving DecidableEq, Repr

/-- An HTTPException raised by an endpoint: status code plus detail. -/
structure HTTPError where
  status_code : Nat
  detail : String
deriving DecidableEq, Repr

/-- The in-memory job store `jobs : Dict[str, JobInfo]` (app.py line 96).
Modelled as an association list; all accesses in the source are single-key
lookups and single-key assignments under `jobs_lock`. -/
abbrev Jobs := List (String × JobInfo)

/-- In-place assignment `jobs[job_id] = j` for a key already present:
replaces the first binding of `id`. -/
def setJob : Jobs → String → JobInfo → Jobs
  | [], _, _ => []
  | (k, v) :: rest, id, j =>
      if k = id then (k, j) :: rest else (k, v) :: setJob rest id j

/-- How Python renders `Optional[str]` inside an f-string:
`None` prints as the string None. -/
def optStr : Option String → String
  | some s => s
  | none => "None"

/-- Whether a status is in the terminal list
`[JobStatus.COMPLETED, JobStatus.FAILED, JobStatus.CANCELLED]`
tested by `cancel_job` (app.py line 633). -/
def isTerminal : JobStatus → Bool
  | .completed => true
  | .failed => true
  | .cancelled => true
  | _ => false

/-- `GET /jobs/{job_id}/result` (app.py lines 581-610): the pure
state-dependent dispatch of `get_job_result` over the job store. -/
def get_job_result (jobs : Jobs) (job_id : String) :
    Except HTTPError TranscriptionResponse :=
  match List.lookup job_id jobs with
  | none => .error ⟨404, "Job not found"⟩
  | some job =>
      if job.status = .pending ∨ job.status = .processing then
        .error ⟨400, "Job not yet completed"⟩
      else if job.status = .failed then
        .error ⟨500, "Job failed: " ++ optStr job.error⟩
      else if job.status = .cancelled then
        .error ⟨400, "Job was cancelled"⟩
      else
        match job.result with
        | none => .error ⟨500, "Job completed but result not available"⟩
        | some r => .ok r

/-- `POST /jobs/{job_id}/cancel` (app.py lines 613-645): returns the
response (or error) together with the updated job store.  `now` models the
`datetime.now().isoformat()` value written to `completed_at`. -/
def cancel_job (jobs : Jobs) (job_id : String) (now : String) :
    Except HTTPError (String × JobStatus) × Jobs :=
  match List.lookup job_id jobs with
  | none => (.error ⟨404, "Job not found"⟩, jobs)
  | some job =>
      if isTerminal job.status then
        (.error ⟨400, "Cannot cancel job with status: " ++ job.status.value⟩,
         jobs)
      else
        let job2 := { job with status := .cancelled, completed_at := some now }
        (.ok ("Job " ++ job_id ++ " cancellation requested", .cancelled),
         setJob jobs job_id job2)

/-! ### Filename suffix handling (pathlib semantics used by validation) -/

/-- Split a character list on a separator character (kernel-computable
replacement for string splitting). -/
def splitOnChar (sep : Char) : List Char → List (List Char)
  | [] => [[]]
  | c :: rest =>
      let r := splitOnChar sep rest
      if c = sep then [] :: r
      else
        match r with
        | h :: t => (c :: h) :: t
        | [] => [[c]]

/-- `PurePath.name` for POSIX paths: the last nonempty slash-separated
component (as used by `Path(file.filename).suffix` in app.py line 511). -/
def pyNameChars (p : String) : List Char :=
  ((((splitOnChar '/' p.toList)).filter (fun c => c ≠ [])).getLast?).getD []

/-- Index of the last dot in a character list, if any. -/
def lastDotIdx (cs : List Char) : Option Nat :=
  match cs.reverse.findIdx? (fun c => c = '.') with
  | none => none
  | some r => some (cs.length - 1 - r)

/-- `Path(filename).suffix.lower()`: pathlib returns `name[i:]` for the last
dot index `i` when `0 < i < len(name) - 1` and the empty string otherwise;
the server lowercases the result (app.py line 511). -/
def pySuffixLower (p : String) : String :=
  let n := pyNameChars p
  match lastDotIdx n with
  | some i =>
      if 0 < i ∧ i + 1 < n.length then String.mk ((n.drop i).map Char.toLower)
      else ""
  | none => ""

/-- The keys of `SUPPORTED_MODELS` (app.py lines 55-68). -/
def supportedModelKeys : List String := ["parakeet", "canary"]

/-- `SUPPORTED_LANGUAGES` for the Canary model (app.py line 71). -/
def supportedLanguagesList : List String := ["en", "es", "de", "fr"]

/-- `AUDIO_EXTENSIONS` (app.py line 52).  Python iterates sets in an
unspecified order when building the detail message, so only membership in
this list is meaningful. -/
def audioExtensionsList : List String := [".wav", ".mp3", ".flac"]

/-- The arguments handed to the background task by
`background_tasks.add_task(process_transcription_job, ...)`
(app.py lines 540-548). -/
structure BgTaskArgs where
  job_id : String
  filename : String
  modelKey : String
  language : Option String
  include_timestamps : Bool
deriving DecidableEq, Repr

/-- `POST /transcribe/async` (app.py lines 473-556): validation and job
creation of `transcribe_audio_async`.  `job_id` models the fresh
`uuid.uuid4()` string and `created_at` the `datetime.now().isoformat()`
value.  File persistence is I/O and is not modelled; the function returns
the response together with the scheduled background-task arguments and the
updated job store. -/
def transcribe_audio_async (jobs : Jobs) (model : String)
    (language : Option String) (include_timestamps : Bool)
    (filename : String) (job_id : String) (created_at : String) :
    Except HTTPError (JobStartResponse × BgTaskArgs) × Jobs :=
  if model ∉ supportedModelKeys then
    (.error ⟨400, "Unsupported model: " ++ model ++
        ". Supported: ['parakeet', 'canary']"⟩, jobs)
  else
    let langError : Option HTTPError :=
      if model = "canary" then
        match language with
        | some l =>
            if l ∈ supportedLanguagesList then none
            else some ⟨400, "Unsupported language: " ++ l ++
                ". Supported: ['de', 'en', 'es', 'fr']"⟩
        | none => none
      else none
    match langError with
    | some err => (.error err, jobs)
    | none =>
        let language2 :=
          if model = "canary" ∧ language = none then some "en" else language
        if pySuffixLower filename ∉ audioExtensionsList then
          (.error ⟨400,
              "Unsupported file format. Supported: .wav, .mp3, .flac"⟩, jobs)
        else
          let job : JobInfo :=
            ⟨job_id, .pending, filename, created_at, none, none, none⟩
          (.ok (⟨job_id, .pending,
                 "Transcription job started for " ++ filename⟩,
                ⟨job_id, filename, model, language2, include_timestamps⟩),
           (job_id, job) :: jobs)

/-! ### Background processor `process_transcription_job` (app.py 228-408)

The coroutine is embedded as a small-step machine.  Each lock-guarded
critical section, and each stretch of work between two suspension points,
is one atomic step; a cancellation request (the mutating branch of
`cancel_job`) may interleave between any two atomic steps.  This matches
the cooperative-concurrency model of the spec (suspension points are the
job-store lock acquisitions and the awaited model calls).  Logging and
monitoring calls are effect-free in this model: `nvidia_asr_monitor`
methods only write log lines and swallow their own cloud errors. -/

/-- A Python exception, reduced to the data the server uses:
`type(e).__name__` and `str(e)`. -/
structure ExcInfo where
  name : String
  text : String
deriving DecidableEq, Repr

abbrev Path := String

/-- A raw segment as found in `output[0].timestamp['segment']`: either a
mapping with optional start/end/text keys or a positional sequence
(app.py lines 344-358). -/
inductive RawSeg where
  | dict (start : Option SegVal) (stop : Option SegVal) (text : Option SegVal)
  | arr (elems : List SegVal)
deriving DecidableEq, Repr

/-- The shape of `output[0]` returned by `asr_model.transcribe`:
a falsy/empty output list, a plain string, an object with a `text`
attribute (with the timestamp segment list when present, truthy, dict-typed
and carrying a segment key — all other timestamp shapes collapse to
`none`, as they all yield an empty segment list), or an object of some
other type (app.py lines 323-358). -/
inductive TransOutput where
  | empty
  | str (s : String)
  | hyp (text : String) (segs : Option (List RawSeg))
  | other (typeName : String)
deriving DecidableEq, Repr

/-- Normalise one raw segment into the canonical dict
(app.py lines 347-358).  Mapping entries fall back to `0`, `0` and the
empty string; positional entries read `seg[0]`, `seg[1]` and
`seg[2] if len(seg) > 2 else ''`, raising `IndexError` when the sequence
has fewer than two elements. -/
def extractSeg : RawSeg → Except ExcInfo Segment
  | .dict st en tx =>
      .ok ⟨st.getD (.num 0), en.getD (.num 0), tx.getD (.str "")⟩
  | .arr (e0 :: e1 :: rest) =>
      .ok ⟨e0, e1, match rest with | t :: _ => t | [] => .str ""⟩
  | .arr _ => .error ⟨"IndexError", "list index out of range"⟩

/-- Normalise a raw segment list, stopping at the first raising segment
(the Python for-loop propagates the first exception). -/
def extractSegs : List RawSeg → Except ExcInfo (List Segment)
  | [] => .ok []
  | s :: rest =>
      match extractSeg s with
      | .error e => .error e
      | .ok x =>
          match extractSegs rest with
          | .error e => .error e
          | .ok xs => .ok (x :: xs)

/-- Output-shape handling of app.py lines 322-358: empty output and
unrecognised item types raise; strings carry no segments; hypothesis
objects contribute their text and normalised segments. -/
def extractResult : TransOutput → Except ExcInfo (String × List Segment)
  | .empty => .error ⟨"Exception", "Transcription returned empty output"⟩
  | .str s => .ok (s, [])
  | .hyp t none => .ok (t, [])
  | .hyp t (some raw) =>
      match extractSegs raw with
      | .error e => .error e
      | .ok segs => .ok (t, segs)
  | .other ty =>
      .error ⟨"Exception", "Unexpected output format: " ++ ty⟩

/-- The nondeterministic environment of one background-task run: the
uploaded temp path, whether its suffix is `.wav`, the outcome of
`convert_to_wav` (which catches its own exceptions and returns `None` on
failure), the outcomes of `get_or_load_model` and
`asr_model.transcribe`, the request parameters echoed into the result, and
the `datetime.now().isoformat()` values observed at the result build and
at the terminal status write. -/
structure Env where
  audioPath : Path
  isWav : Bool
  convertResult : Option Path
  loadOutcome : Except ExcInfo Unit
  transcribeOutcome : Except ExcInfo TransOutput
  modelKey : String
  language : Option String
  filename : String
  nowRes : String
  nowP : String

/-- Externally visible actions of the background task, recorded in
chronological order. -/
inductive Effect where
  | convertCall
  | modelInvoke
  | cleanup (p : Path)
deriving DecidableEq, Repr

/-- Program counter of the background task: one constructor per atomic
step remaining.  `raised e` is the state between an exception being thrown
and the handler critical section running (the handler must re-acquire the
job-store lock, which is a suspension point). -/
inductive PC where
  | start
  | beforeConvert
  | beforeCP2
  | beforeTranscribe
  | beforeCP3 (out : TransOutput)
  | beforeExtract (out : TransOutput)
  | beforeCommit (text : String) (segs : List Segment)
  | raised (e : ExcInfo)
  | done
deriving DecidableEq, Repr

/-- State of the single-job system: the job record (the only store entry
the task touches), the task position, the `temp_wav` local and the effect
log. -/
structure MState where
  job : JobInfo
  pc : PC
  tempWav : Option Path
  effects : List Effect
deriving DecidableEq, Repr

/-- The `finally` block of `process_transcription_job`
(app.py lines 404-408): always remove the uploaded temp file, and the
converted file when one was produced. -/
def finallyCleanups (a : Path) (tw : Option Path) : List Effect :=
  .cleanup a :: (match tw with | some p => [.cleanup p] | none => [])

/-- The `TranscriptionResponse` built on success (app.py lines 361-368). -/
def mkResult (env : Env) (text : String) (segs : List Segment) :
    TranscriptionResponse :=
  ⟨text, segs, env.filename, env.nowRes, env.modelKey, env.language⟩

/-- One atomic step of `process_transcription_job`.  Early returns run the
`finally` cleanups; the exception handler unconditionally writes the
`failed` terminal state (app.py lines 390-402). -/
def procStep (env : Env) (s : MState) : MState :=
  match s.pc with
  | .start =>
      if s.job.status = .cancelled then
        { s with pc := .done,
                 effects := s.effects ++
                   (.cleanup env.audioPath ::
                     finallyCleanups env.audioPath s.tempWav) }
      else
        { s with job := { s.job with status := .processing },
                 pc := .beforeConvert }
  | .beforeConvert =>
      if env.isWav then { s with pc := .beforeCP2 }
      else
        match env.convertResult with
        | some p =>
            { s with tempWav := some p, pc := .beforeCP2,
                     effects := s.effects ++ [.convertCall] }
        | none =>
            { s with pc := .raised ⟨"Exception", "Audio conversion failed"⟩,
                     effects := s.effects ++ [.convertCall] }
  | .beforeCP2 =>
      if s.job.status = .cancelled then
        { s with pc := .done,
                 effects := s.effects ++
                   (finallyCleanups env.audioPath s.tempWav ++
                    finallyCleanups env.audioPath s.tempWav) }
      else { s with pc := .beforeTranscribe }
  | .beforeTranscribe =>
      match env.loadOutcome with
      | .error e => { s with pc := .raised e }
      | .ok _ =>
          match env.transcribeOutcome with
          | .error e =>
              { s with pc := .raised e,
                       effects := s.effects ++ [.modelInvoke] }
          | .ok out =>
              { s with pc := .beforeCP3 out,
                       effects := s.effects ++ [.modelInvoke] }
  | .beforeCP3 out =>
      if s.job.status = .cancelled then
        { s with pc := .done,
                 effects := s.effects ++
                   (finallyCleanups env.audioPath s.tempWav ++
                    finallyCleanups env.audioPath s.tempWav) }
      else { s with pc := .beforeExtract out }
  | .beforeExtract out =>
      match extractResult out with
      | .error e => { s with pc := .raised e }
      | .ok (t, segs) => { s with pc := .beforeCommit t segs }
  | .beforeCommit t segs =>
      let j2 := { s.job with
                  status := .completed
                  completed_at := some env.nowP
                  result := some (mkResult env t segs) }
      { s with job := j2, pc := .done,
               effects := s.effects ++
                 finallyCleanups env.audioPath s.tempWav }
  | .raised e =>
      let j2 := { s.job with
                  status := .failed
                  completed_at := some env.nowP
                  error := some (e.name ++ ": " ++ e.text) }
      { s with job := j2, pc := .done,
               effects := s.effects ++
                 finallyCleanups env.audioPath s.tempWav }
  | .done => s

/-- The mutating branch of `cancel_job` applied to this job: a no-op when
the status is already terminal (the endpoint answers 400 without touching
the record), otherwise writes `cancelled` and `completed_at`
(app.py lines 633-641). -/
def cancelStep (now : String) (s : MState) : MState :=
  if isTerminal s.job.status then s
  else
    let j2 := { s.job with
                status := .cancelled
                completed_at := some now }
    { s with job := j2 }

/-- One interleaving element: either the background task takes its next
atomic step, or a cancellation request lands (carrying the time it
writes). -/
inductive Move where
  | proc
  | cancel (now : String)

/-- Apply one move. -/
def stepM (env : Env) : Move → MState → MState
  | .proc => procStep env
  | .cancel now => cancelStep now

/-- Run an interleaving. -/
def runM (env : Env) : List Move → MState → MState
  | [], s => s
  | m :: ms, s => runM env ms (stepM env m s)

/-- All intermediate states of an interleaving, starting state included. -/
def traceM (env : Env) : List Move → MState → List MState
  | [], s => [s]
  | m :: ms, s => s :: traceM env ms (stepM env m s)

/-- The job-status history along an interleaving. -/
def statusTrace (env : Env) (moves : List Move) (s : MState) :
    List JobStatus :=
  (traceM env moves s).map (fun st => st.job.status)

/-- The machine state at background-task start for a freshly submitted
job: the record `transcribe_audio_async` inserted (pending, no
timestamps/error/result), the task at its first checkpoint, no converted
file, nothing done yet. -/
def initState (id fn created : String) : MState :=
  ⟨⟨id, .pending, fn, created, none, none, none⟩, .start, none, []⟩

/-- The first exception an uncancelled run of the task hits, if any:
conversion failure is re-raised as `Exception("Audio conversion failed")`
(app.py line 267), then model loading, model invocation and output-shape
handling may raise in that order. -/
def firstExc (env : Env) : Option ExcInfo :=
  if env.isWav = false ∧ env.convertResult = none then
    some ⟨"Exception", "Audio conversion failed"⟩
  else
    match env.loadOutcome with
    | .error e => some e
    | .ok _ =>
        match env.transcribeOutcome with
        | .error e => some e
        | .ok out =>
            match extractResult out with
            | .error e => some e
            | .ok _ => none

/-! ### Standalone CLI output helpers (src/transcribe.py, scenario3)

Python float arithmetic is modelled with exact rationals: all operations
used (`//`, `%`, `int`, `* 1000`) follow real semantics on the rational
values. -/

/-- Python float floor-division `a // b` for positive `b`. -/
def pyFloorDiv (a b : ℚ) : ℚ := (⌊a / b⌋ : ℤ)

/-- Python float modulo `a % b` for positive `b`:
`a - b * (a // b)`, always in `[0, b)`. -/
def pyMod (a b : ℚ) : ℚ := a - b * (⌊a / b⌋ : ℤ)

/-- Python `int(x)` on a float: truncation toward zero. -/
def pyInt (q : ℚ) : ℤ := if 0 ≤ q then ⌊q⌋ else -⌊-q⌋

/-- Python `f-string` zero padding `{n:0wd}`: pad the decimal digits with
leading zeros to the given minimum width; the minus sign of a negative
number counts toward the width and precedes the zeros. -/
def pyZeroPad (width : Nat) (n : Int) : String :=
  let digits := toString n.natAbs
  let core :=
    if n < 0 then
      String.mk (List.replicate ((width - 1) - digits.length) '0') ++ digits
    else
      String.mk (List.replicate (width - digits.length) '0') ++ digits
  if n < 0 then "-" ++ core else core

/-- `seconds_to_srt_time` (src/transcribe.py lines 80-86, identical in
scenario1 and scenario3): renders `HH:MM:SS,mmm` from a duration in
seconds. -/
def seconds_to_srt_time (s : ℚ) : String :=
  let hours := pyInt (pyFloorDiv s 3600)
  let minutes := pyInt (pyFloorDiv (pyMod s 3600) 60)
  let secs := pyInt (pyMod s 60)
  let millis := pyInt (pyMod s 1 * 1000)
  pyZeroPad 2 hours ++ ":" ++ pyZeroPad 2 minutes ++ ":" ++
    pyZeroPad 2 secs ++ "," ++ pyZeroPad 3 millis

/-- The output file names of `save_outputs` in src/transcribe.py
(lines 110-126): `{timestamp}_{basename}.txt` and the same stem with
`.srt`. -/
def save_outputs_names (timestamp base_name : String) : String × String :=
  (timestamp ++ "_" ++ base_name ++ ".txt",
   timestamp ++ "_" ++ base_name ++ ".srt")

/-- The output file names of `save_outputs` in scenario3/transcribe.py
(lines 133-134): `{timestamp}_{basename}_{language}.{txt,srt}`. -/
def save_outputs_names_scenario3 (timestamp base_name language : String) :
    String × String :=
  (timestamp ++ "_" ++ base_name ++ "_" ++ language ++ ".txt",
   timestamp ++ "_" ++ base_name ++ "_" ++ language ++ ".srt")

/-! ### The cleanup helper `cleanup_file` (app.py 175-181) -/

/-- A filesystem abstraction for `cleanup_file`: the set of existing
files, plus the paths whose `unlink` raises an `OSError` (permissions,
races, ...). -/
structure FS where
  files : List Path
  failing : List Path
deriving DecidableEq, Repr

/-- The `try` body of `cleanup_file`:
`if file_path.exists(): file_path.unlink()`, where `unlink` may raise. -/
def cleanup_file_body (fs : FS) (p : Path) : Except ExcInfo FS :=
  if p ∈ fs.files then
    if p ∈ fs.failing then .error ⟨"OSError", "unlink failed"⟩
    else .ok { fs with files := fs.files.erase p }
  else .ok fs

/-- `cleanup_file` (app.py lines 175-181): runs the body and swallows any
exception (the `except` clause only prints), so it always returns
normally. -/
def cleanup_file (fs : FS) (p : Path) : FS :=
  match cleanup_file_body fs p with
  | .ok fs2 => fs2
  | .error _ => fs

/-! ### Reachability invariants of the job machine -/

/-- Which statuses the job can have at each task position in a reachable
run: before checkpoint 1 it is `pending` unless already cancelled; once
checkpoint 1 passed and until the terminal write it is `processing`
unless a cancellation landed; after the terminal write anything the
machine wrote. -/
def pcInv (s : MState) : Prop :=
  match s.pc with
  | .start => s.job.status = .pending ∨ s.job.status = .cancelled
  | .done => True
  | _ => s.job.status = .processing ∨ s.job.status = .cancelled

/-- Field/status relationship of a reachable job record. -/
def fieldInv (j : JobInfo) : Prop :=
  match j.status with
  | .completed => j.error = none ∧ j.result ≠ none
  | .failed => j.error ≠ none ∧ j.result = none
  | _ => j.error = none ∧ j.result = none

/-- The inductive invariant of the single-job system. -/
def MInv (s : MState) : Prop :=
  pcInv s ∧ (s.pc ≠ .done → s.job.error = none ∧ s.job.result = none) ∧
    fieldInv s.job

/-- The status transitions the implementation can actually take in one
atomic step: the documented forward arrows, plus the two overwrites of
`cancelled` by the processor's unconditional terminal writes, plus
stuttering. -/
def stepOk : JobStatus → JobStatus → Bool
  | .pending, .processing => true
  | .pending, .cancelled => true
  | .processing, .completed => true
  | .processing, .failed => true
  | .processing, .cancelled => true
  | .cancelled, .completed => true
  | .cancelled, .failed => true
  | a, b => a == b

theorem stepOk_refl (a : JobStatus) : stepOk a a = true := by
  cases a <;> rfl

/-- Claim C1 as stated in the spec: exactly one of error/result is
non-null once the status is terminal; both are null while
pending/processing. -/
abbrev claimC1 (j : JobInfo) : Prop :=
  (isTerminal j.status = true →
    ((j.error ≠ none ∧ j.result = none) ∨ (j.error = none ∧ j.result ≠ none))) ∧
  ((j.status = .pending ∨ j.status = .processing) →
    j.error = none ∧ j.result = none)

/-- Claim C2 as stated in the spec, on a status history: a job whose
status is terminal never changes status again. -/
abbrev claimC2 (statuses : List JobStatus) : Prop :=
  List.Chain' (fun a b => isTerminal a = true → b = a) statuses

/-- Each interleaving step takes an implementable status transition and
preserves the invariant. -/
theorem stepM_stepOk_inv (env : Env) (m : Move) (s : MState) (h : MInv s) :
    stepOk s.job.status (stepM env m s).job.status = true ∧
      MInv (stepM env m s) := by
  obtain ⟨hpc, hfields, hfield⟩ := h
  cases m with
  | cancel now =>
      by_cases ht : isTerminal s.job.status
      · constructor
        · simp [stepM, cancelStep, ht, stepOk_refl]
        · exact ⟨by simpa [MInv, pcInv, stepM, cancelStep, ht] using hpc,
            by simpa [stepM, cancelStep, ht] using hfields,
            by simpa [stepM, cancelStep, ht] using hfield⟩
      · have hst : s.job.status = .pending ∨ s.job.status = .processing := by
          cases hs : s.job.status <;> simp_all [isTerminal]
        have hne : s.job.error = none ∧ s.job.result = none := by
          rcases hst with hs | hs <;> simpa [fieldInv, hs] using hfield
        constructor
        · rcases hst with hs | hs <;>
            simp [stepM, cancelStep, ht, hs, stepOk, isTerminal]
        · refine ⟨?_, ?_, ?_⟩
          · unfold pcInv at hpc ⊢
            cases hpc2 : s.pc <;> simp_all [stepM, cancelStep, ht]
          · intro _
            simpa [stepM, cancelStep, ht] using hne
          · simp [stepM, cancelStep, ht, fieldInv, hne.1, hne.2]
  | proc =>
      cases hpcv : s.pc with
      | start =>
          by_cases hc : s.job.status = .cancelled
          · have hne : s.job.error = none ∧ s.job.result = none := by
              simpa [fieldInv, hc] using hfield
            constructor
            · simp [stepM, procStep, hpcv, hc, stepOk_refl]
            · refine ⟨?_, ?_, ?_⟩
              · simp [stepM, procStep, hpcv, hc, pcInv]
              · intro hd
                simpa [stepM, procStep, hpcv, hc] using hne
              · simpa [stepM, procStep, hpcv, hc, fieldInv] using hfield
          · have hp : s.job.status = .pending := by
              rw [pcInv, hpcv] at hpc
              tauto
            have hne : s.job.error = none ∧ s.job.result = none := by
              simpa [fieldInv, hp] using hfield
            constructor
            · simp [stepM, procStep, hpcv, hc, hp, stepOk]
            · refine ⟨?_, ?_, ?_⟩
              · simp [stepM, procStep, hpcv, hc, pcInv]
              · intro _
                simpa [stepM, procStep, hpcv, hc] using hne
              · simp [stepM, procStep, hpcv, hc, fieldInv, hne.1, hne.2]
      | beforeConvert =>
          rw [pcInv, hpcv] at hpc
          have hne := hfields (by simp [hpcv])
          by_cases hw : env.isWav
          · constructor
            · simp [stepM, procStep, hpcv, hw, stepOk_refl]
            · refine ⟨?_, ?_, ?_⟩
              · simpa [stepM, procStep, hpcv, hw, pcInv] using hpc
              · intro _
                simpa [stepM, procStep, hpcv, hw] using hne
              · simpa [stepM, procStep, hpcv, hw] using hfield
          · rcases hcv : env.convertResult with _ | p
            all_goals constructor
            · simp [stepM, procStep, hpcv, hw, hcv, stepOk_refl]
            · refine ⟨?_, ?_, ?_⟩
              · simpa [stepM, procStep, hpcv, hw, hcv, pcInv] using hpc
              · intro _
                simpa [stepM, procStep, hpcv, hw, hcv] using hne
              · simpa [stepM, procStep, hpcv, hw, hcv] using hfield
            · simp [stepM, procStep, hpcv, hw, hcv, stepOk_refl]
            · refine ⟨?_, ?_, ?_⟩
              · simpa [stepM, procStep, hpcv, hw, hcv, pcInv] using hpc
              · intro _
                simpa [stepM, procStep, hpcv, hw, hcv] using hne
              · simpa [stepM, procStep, hpcv, hw, hcv] using hfield
      | beforeCP2 =>
          rw [pcInv, hpcv] at hpc
          have hne := hfields (by simp [hpcv])
          by_cases hc : s.job.status = .cancelled
          all_goals constructor
          · simp [stepM, procStep, hpcv, hc, stepOk_refl]
          · refine ⟨?_, ?_, ?_⟩
            · simp [stepM, procStep, hpcv, hc, pcInv]
            · intro _
              simpa [stepM, procStep, hpcv, hc] using hne
            · simpa [stepM, procStep, hpcv, hc] using hfield
          · simp [stepM, procStep, hpcv, hc, stepOk_refl]
          · refine ⟨?_, ?_, ?_⟩
            · simpa [stepM, procStep, hpcv, hc, pcInv] using hpc
            · intro _
              simpa [stepM, procStep, hpcv, hc] using hne
            · simpa [stepM, procStep, hpcv, hc] using hfield
      | beforeTranscribe =>
          rw [pcInv, hpcv] at hpc
          have hne := hfields (by simp [hpcv])
          rcases hl : env.loadOutcome with e | u
          · constructor
            · simp [stepM, procStep, hpcv, hl, stepOk_refl]
            · refine ⟨?_, ?_, ?_⟩
              · simpa [stepM, procStep, hpcv, hl, pcInv] using hpc
              · intro _
                simpa [stepM, procStep, hpcv, hl] using hne
              · simpa [stepM, procStep, hpcv, hl] using hfield
          · rcases htr : env.transcribeOutcome with e | out
            all_goals constructor
            · simp [stepM, procStep, hpcv, hl, htr, stepOk_refl]
            · refine ⟨?_, ?_, ?_⟩
              · simpa [stepM, procStep, hpcv, hl, htr, pcInv] using hpc
              · intro _
                simpa [stepM, procStep, hpcv, hl, htr] using hne
              · simpa [stepM, procStep, hpcv, hl, htr] using hfield
            · simp [stepM, procStep, hpcv, hl, htr, stepOk_refl]
            · refine ⟨?_, ?_, ?_⟩
              · simpa [stepM, procStep, hpcv, hl, htr, pcInv] using hpc
              · intro _
                simpa [stepM, procStep, hpcv, hl, htr] using hne
              · simpa [stepM, procStep, hpcv, hl, htr] using hfield
      | beforeCP3 out =>
          rw [pcInv, hpcv] at hpc
          have hne := hfields (by simp [hpcv])
          by_cases hc : s.job.status = .cancelled
          all_goals constructor
          · simp [stepM, procStep, hpcv, hc, stepOk_refl]
          · refine ⟨?_, ?_, ?_⟩
            · simp [stepM, procStep, hpcv, hc, pcInv]
            · intro _
              simpa [stepM, procStep, hpcv, hc] using hne
            · simpa [stepM, procStep, hpcv, hc] using hfield
          · simp [stepM, procStep, hpcv, hc, stepOk_refl]
          · refine ⟨?_, ?_, ?_⟩
            · simpa [stepM, procStep, hpcv, hc, pcInv] using hpc
            · intro _
              simpa [stepM, procStep, hpcv, hc] using hne
            · simpa [stepM, procStep, hpcv, hc] using hfield
      | beforeExtract out =>
          rw [pcInv, hpcv] at hpc
          have hne := hfields (by simp [hpcv])
          rcases hx : extractResult out with e | ts
          all_goals constructor
          · simp [stepM, procStep, hpcv, hx, stepOk_refl]
          · refine ⟨?_, ?_, ?_⟩
            · simpa [stepM, procStep, hpcv, hx, pcInv] using hpc
            · intro _
              simpa [stepM, procStep, hpcv, hx] using hne
            · simpa [stepM, procStep, hpcv, hx] using hfield
          · simp [stepM, procStep, hpcv, hx, stepOk_refl]
          · refine ⟨?_, ?_, ?_⟩
            · simpa [stepM, procStep, hpcv, hx, pcInv] using hpc
            · intro _
              simpa [stepM, procStep, hpcv, hx] using hne
            · simpa [stepM, procStep, hpcv, hx] using hfield
      | beforeCommit t segs =>
          rw [pcInv, hpcv] at hpc
          have hne := hfields (by simp [hpcv])
          constructor
          · rcases hpc with hs | hs <;>
              simp [stepM, procStep, hpcv, hs, stepOk]
          · refine ⟨?_, ?_, ?_⟩
            · simp [stepM, procStep, hpcv, pcInv]
            · intro hd
              exact absurd (by simp [stepM, procStep, hpcv]) hd
            · simp [stepM, procStep, hpcv, fieldInv, hne.1]
      | raised e =>
          rw [pcInv, hpcv] at hpc
          have hne := hfields (by simp [hpcv])
          constructor
          · rcases hpc with hs | hs <;>
              simp [stepM, procStep, hpcv, hs, stepOk]
          · refine ⟨?_, ?_, ?_⟩
            · simp [stepM, procStep, hpcv, pcInv]
            · intro hd
              exact absurd (by simp [stepM, procStep, hpcv]) hd
            · simp [stepM, procStep, hpcv, fieldInv, hne.2]
      | done =>
          constructor
          · simp [stepM, procStep, hpcv, stepOk_refl]
          · exact ⟨by simp [pcInv, stepM, procStep, hpcv],
              by simp [stepM, procStep, hpcv],
              by simpa [stepM, procStep, hpcv] using hfield⟩

/-- The invariant holds along every interleaving. -/
theorem MInv_runM (env : Env) :
    ∀ (moves : List Move) (s : MState), MInv s → MInv (runM env moves s)
  | [], _, h => h
  | m :: ms, s, h =>
      MInv_runM env ms (stepM env m s) (stepM_stepOk_inv env m s h).2

theorem statusTrace_head (env : Env) (ms : List Move) (s : MState) :
    ∃ t, statusTrace env ms s = s.job.status :: t := by
  cases ms <;> exact ⟨_, rfl⟩

/-- Along every interleaving, every adjacent pair of observed statuses is
one of the implementable transitions. -/
theorem chain_statusTrace (env : Env) :
    ∀ (moves : List Move) (s : MState), MInv s →
      List.Chain' (fun a b => stepOk a b = true) (statusTrace env moves s)
  | [], s, _ => by simp [statusTrace, traceM]
  | m :: ms, s, h => by
      have hstep := stepM_stepOk_inv env m s h
      have ih := chain_statusTrace env ms (stepM env m s) hstep.2
      obtain ⟨t, ht⟩ := statusTrace_head env ms (stepM env m s)
      have hcons : statusTrace env (m :: ms) s =
          s.job.status :: statusTrace env ms (stepM env m s) := rfl
      rw [hcons, ht, List.chain'_cons]
      rw [ht] at ih
      exact ⟨hstep.1, ih⟩

/-! ### Concrete environments used by witnesses and counterexamples -/

/-- A run whose model call succeeds with a plain-string output. -/
def envOk : Env :=
  ⟨"/tmp/up.wav", true, none, .ok (), .ok (.str "hello world"),
   "parakeet", none, "a.wav", "t-res", "t-end"⟩

/-- A run whose model call raises. -/
def envErr : Env :=
  ⟨"/tmp/up.wav", true, none, .ok (),
   .error ⟨"RuntimeError", "CUDA out of memory"⟩,
   "parakeet", none, "a.wav", "t-res", "t-end"⟩

/-- The final state of an interleaved run started on a freshly submitted
job. -/
def finalState (env : Env) (moves : List Move) (id fn created : String) :
    MState :=
  runM env moves (initState id fn created)

/-- Eight background-task steps: enough to drive the task to `done` on
every path (the longest, fully successful path takes seven). -/
def movesProc8 : List Move :=
  [.proc, .proc, .proc, .proc, .proc, .proc, .proc, .proc]

theorem MInv_initState (id fn created : String) :
    MInv (initState id fn created) := by
  refine ⟨?_, ?_, ?_⟩ <;> simp [initState, pcInv, fieldInv]

/-! ### Claims C1 and C2 -/

/-- C1, counterexample: the claim "exactly one of error and result is
non-null once the job reaches a terminal state" is false on the code: a
pending job cancelled via the cancel endpoint is terminal (`cancelled`)
with `error = None` and `result = None`.  The run below submits a job and
lets one cancellation land before the background task starts. -/
theorem C1_counterexample :
    (runM envOk [.cancel "t-c"] (initState "j" "a.wav" "t0")).job =
      ⟨"j", .cancelled, "a.wav", "t0", some "t-c", none, none⟩ ∧
    ¬ claimC1 (runM envOk [.cancel "t-c"] (initState "j" "a.wav" "t0")).job :=
  ⟨by decide, by decide⟩

/-- C1, amended: in every interleaving of the background processor and
the cancel endpoint, a completed job has a result and no error, a failed
job has an error and no result, a cancelled job has neither, and a
pending or processing job has neither.  (The original claim is amended
only in the `cancelled` case: there both fields stay null, instead of
exactly one being non-null.) -/
theorem C1_amended_invariant (env : Env) (moves : List Move)
    (id fn created : String) :
    ((finalState env moves id fn created).job.status = .completed →
        (finalState env moves id fn created).job.error = none ∧
        (finalState env moves id fn created).job.result ≠ none) ∧
    ((finalState env moves id fn created).job.status = .failed →
        (finalState env moves id fn created).job.error ≠ none ∧
        (finalState env moves id fn created).job.result = none) ∧
    ((finalState env moves id fn created).job.status = .cancelled →
        (finalState env moves id fn created).job.error = none ∧
        (finalState env moves id fn created).job.result = none) ∧
    (((finalState env moves id fn created).job.status = .pending ∨
        (finalState env moves id fn created).job.status = .processing) →
        (finalState env moves id fn created).job.error = none ∧
        (finalState env moves id fn created).job.result = none) := by
  have hf : fieldInv (finalState env moves id fn created).job :=
    (MInv_runM env moves (initState id fn created)
      (MInv_initState id fn created)).2.2
  refine ⟨fun hs => ?_, fun hs => ?_, fun hs => ?_, fun hs => ?_⟩
  · simpa [fieldInv, hs] using hf
  · simpa [fieldInv, hs] using hf
  · simpa [fieldInv, hs] using hf
  · rcases hs with hs | hs <;> simpa [fieldInv, hs] using hf

/-- C1 amended, witness: a run that completes has a result and no error;
evaluated on a concrete successful run. -/
theorem C1_amended_witness :
    (finalState envOk movesProc8 "j" "a.wav" "t0").job.error = none ∧
    (finalState envOk movesProc8 "j" "a.wav" "t0").job.result ≠ none :=
  (C1_amended_invariant envOk movesProc8 "j" "a.wav" "t0").1 (by decide)

/-- C2, counterexample: the claim "a job whose status is terminal never
changes status again" is false on the code: cancel a processing job while
the model call is in flight, then let the call raise — the exception
handler unconditionally overwrites the terminal `cancelled` with
`failed` (app.py lines 399-402). -/
theorem C2_counterexample :
    statusTrace envErr [.proc, .proc, .proc, .proc, .cancel "t-c", .proc]
        (initState "j" "a.wav" "t0") =
      [.pending, .processing, .processing, .processing, .processing,
       .cancelled, .failed] ∧
    ¬ claimC2 (statusTrace envErr
        [.proc, .proc, .proc, .proc, .cancel "t-c", .proc]
        (initState "j" "a.wav" "t0")) := by
  have he : statusTrace envErr
      [.proc, .proc, .proc, .proc, .cancel "t-c", .proc]
      (initState "j" "a.wav" "t0") =
      [JobStatus.pending, .processing, .processing, .processing,
       .processing, .cancelled, .failed] := by decide
  refine ⟨he, ?_⟩
  rw [claimC2, he]
  intro h
  simp [List.chain'_cons, isTerminal] at h

/-- C2, amended: along every interleaving of the background processor and
the cancel endpoint, each adjacent status transition is one of
pending→processing, pending→cancelled, processing→cancelled,
processing→completed, processing→failed, cancelled→completed,
cancelled→failed, or a stutter.  In particular `completed` and `failed`
are terminal and no job ever re-enters `pending` or `processing` after
any terminal state; but `cancelled` is not absolutely terminal: a
cancellation landing after the last checkpoint the task passed is
overwritten by the final commit or by the exception handler. -/
theorem C2_amended_transitions (env : Env) (moves : List Move)
    (id fn created : String) :
    List.Chain' (fun a b => stepOk a b = true)
      (statusTrace env moves (initState id fn created)) :=
  chain_statusTrace env moves (initState id fn created)
    (MInv_initState id fn created)

/-! ### Claims C3, C4 and C10 -/

/-- C3, confirmed: the result endpoint returns 404 for an unknown id,
400 while the job is pending or processing, 500 carrying the job's error
field when it failed, 400 when it was cancelled, and otherwise (completed,
result stored) the job's result. -/
theorem C3_result_endpoint :
    (∀ (jobs : Jobs) (id : String), List.lookup id jobs = none →
        get_job_result jobs id = .error ⟨404, "Job not found"⟩) ∧
    (∀ (jobs : Jobs) (id : String) (j : JobInfo),
        List.lookup id jobs = some j →
        (j.status = .pending ∨ j.status = .processing) →
        get_job_result jobs id = .error ⟨400, "Job not yet completed"⟩) ∧
    (∀ (jobs : Jobs) (id : String) (j : JobInfo),
        List.lookup id jobs = some j → j.status = .failed →
        get_job_result jobs id =
          .error ⟨500, "Job failed: " ++ optStr j.error⟩) ∧
    (∀ (jobs : Jobs) (id : String) (j : JobInfo),
        List.lookup id jobs = some j → j.status = .cancelled →
        get_job_result jobs id = .error ⟨400, "Job was cancelled"⟩) ∧
    (∀ (jobs : Jobs) (id : String) (j : JobInfo) (r : TranscriptionResponse),
        List.lookup id jobs = some j → j.status = .completed →
        j.result = some r → get_job_result jobs id = .ok r) := by
  refine ⟨?_, ?_, ?_, ?_, ?_⟩
  · intro jobs id h
    simp [get_job_result, h]
  · intro jobs id j h hs
    rcases hs with hs | hs <;> simp [get_job_result, h, hs]
  · intro jobs id j h hs
    simp [get_job_result, h, hs]
  · intro jobs id j h hs
    simp [get_job_result, h, hs]
  · intro jobs id j r h hs hr
    simp [get_job_result, h, hs, hr]

/-- A small concrete job store exercising all result-endpoint branches. -/
def jobsSample : Jobs :=
  [("p", ⟨"p", .pending, "p.wav", "t0", none, none, none⟩),
   ("f", ⟨"f", .failed, "f.wav", "t0", some "t1", some "Exception: boom",
     none⟩),
   ("x", ⟨"x", .cancelled, "x.wav", "t0", some "t1", none, none⟩),
   ("c", ⟨"c", .completed, "c.wav", "t0", some "t1", none,
     some ⟨"hi", [], "c.wav", "t1", "parakeet", none⟩⟩)]

/-- C3, witness: the five branches evaluated on a concrete store. -/
theorem C3_result_endpoint_witness :
    get_job_result jobsSample "missing" = .error ⟨404, "Job not found"⟩ ∧
    get_job_result jobsSample "p" = .error ⟨400, "Job not yet completed"⟩ ∧
    get_job_result jobsSample "f" =
      .error ⟨500, "Job failed: Exception: boom"⟩ ∧
    get_job_result jobsSample "x" = .error ⟨400, "Job was cancelled"⟩ ∧
    get_job_result jobsSample "c" =
      .ok ⟨"hi", [], "c.wav", "t1", "parakeet", none⟩ :=
  ⟨C3_result_endpoint.1 jobsSample "missing" (by decide),
   C3_result_endpoint.2.1 jobsSample "p"
     ⟨"p", .pending, "p.wav", "t0", none, none, none⟩
     (by decide) (Or.inl rfl),
   C3_result_endpoint.2.2.1 jobsSample "f"
     ⟨"f", .failed, "f.wav", "t0", some "t1", some "Exception: boom", none⟩
     (by decide) rfl,
   C3_result_endpoint.2.2.2.1 jobsSample "x"
     ⟨"x", .cancelled, "x.wav", "t0", some "t1", none, none⟩
     (by decide) rfl,
   C3_result_endpoint.2.2.2.2 jobsSample "c"
     ⟨"c", .completed, "c.wav", "t0", some "t1", none,
       some ⟨"hi", [], "c.wav", "t1", "parakeet", none⟩⟩
     ⟨"hi", [], "c.wav", "t1", "parakeet", none⟩
     (by decide) rfl rfl⟩

/-- C4, confirmed: the cancel endpoint returns 404 for an unknown id;
returns 400 and leaves the store (hence the record, its result and
completed_at) unchanged when the job is terminal; and otherwise writes
status cancelled and completed_at = now into the record and returns the
cancelled status. -/
theorem C4_cancel_endpoint :
    (∀ (jobs : Jobs) (id now : String), List.lookup id jobs = none →
        cancel_job jobs id now = (.error ⟨404, "Job not found"⟩, jobs)) ∧
    (∀ (jobs : Jobs) (id now : String) (j : JobInfo),
        List.lookup id jobs = some j → isTerminal j.status = true →
        cancel_job jobs id now =
          (.error ⟨400, "Cannot cancel job with status: " ++ j.status.value⟩,
           jobs)) ∧
    (∀ (jobs : Jobs) (id now : String) (j : JobInfo),
        List.lookup id jobs = some j → isTerminal j.status = false →
        cancel_job jobs id now =
          (.ok ("Job " ++ id ++ " cancellation requested", .cancelled),
           setJob jobs id
             { j with status := .cancelled, completed_at := some now })) := by
  refine ⟨?_, ?_, ?_⟩
  · intro jobs id now h
    simp [cancel_job, h]
  · intro jobs id now j h ht
    simp [cancel_job, h, ht]
  · intro jobs id now j h ht
    simp [cancel_job, h, ht]

/-- C4, witness: cancelling a completed job is rejected and changes
nothing; cancelling a pending job rewrites exactly its status and
completed_at. -/
theorem C4_cancel_endpoint_witness :
    cancel_job jobsSample "c" "t9" =
      (.error ⟨400, "Cannot cancel job with status: completed"⟩,
       jobsSample) ∧
    cancel_job jobsSample "p" "t9" =
      (.ok ("Job p cancellation requested", .cancelled),
       setJob jobsSample "p"
         ⟨"p", .cancelled, "p.wav", "t0", some "t9", none, none⟩) :=
  ⟨C4_cancel_endpoint.2.1 jobsSample "c" "t9"
     ⟨"c", .completed, "c.wav", "t0", some "t1", none,
       some ⟨"hi", [], "c.wav", "t1", "parakeet", none⟩⟩
     (by decide) rfl,
   C4_cancel_endpoint.2.2 jobsSample "p" "t9"
     ⟨"p", .pending, "p.wav", "t0", none, none, none⟩
     (by decide) rfl⟩

/-- C10, confirmed: the result endpoint never returns a success payload
without a stored result — a completed job with a null result gets the 500
"result not available" error, and every successful response comes from a
completed job whose result field holds exactly that payload; so the error
branch is unreachable exactly when every completed job has a non-null
result, which is the completed-state half of the terminal-state
invariant. -/
theorem C10_result_guard :
    (∀ (jobs : Jobs) (id : String) (j : JobInfo),
        List.lookup id jobs = some j → j.status = .completed →
        j.result = none →
        get_job_result jobs id =
          .error ⟨500, "Job completed but result not available"⟩) ∧
    (∀ (jobs : Jobs) (id : String) (r : TranscriptionResponse),
        get_job_result jobs id = .ok r →
        ∃ j, List.lookup id jobs = some j ∧ j.status = .completed ∧
          j.result = some r) := by
  constructor
  · intro jobs id j h hs hr
    simp [get_job_result, h, hs, hr]
  · intro jobs id r h
    rcases hl : List.lookup id jobs with _ | j
    · simp [get_job_result, hl] at h
    · refine ⟨j, rfl, ?_⟩
      cases hs : j.status <;>
        rcases hr : j.result with _ | r2 <;>
        simp_all [get_job_result, hl, hs, hr]

/-- C10, witness: a completed job whose result was nulled out gets the
500 guard error. -/
theorem C10_result_guard_witness :
    get_job_result
      [("c", ⟨"c", .completed, "c.wav", "t0", some "t1", none, none⟩)] "c" =
      .error ⟨500, "Job completed but result not available"⟩ :=
  C10_result_guard.1
    [("c", ⟨"c", .completed, "c.wav", "t0", some "t1", none, none⟩)] "c"
    ⟨"c", .completed, "c.wav", "t0", some "t1", none, none⟩
    (by decide) rfl rfl

/-! ### Claim C7 -/

/-- C7, confirmed: submission validation runs in order — unknown model
first (regardless of language and filename), then, for the multilingual
canary model, unsupported language (regardless of filename), then
unsupported file extension; each failure is a synchronous 400 and leaves
the store without a new job; on success a fresh pending record is
inserted, the background task receives the model-specific default
language when none was given to canary, and {job_id, status pending} is
returned immediately. -/
theorem C7_submission_validation :
    (∀ (jobs : Jobs) (model : String) (lang : Option String) (ts : Bool)
        (fn id ca : String), model ∉ supportedModelKeys →
        transcribe_audio_async jobs model lang ts fn id ca =
          (.error ⟨400, "Unsupported model: " ++ model ++
              ". Supported: ['parakeet', 'canary']"⟩, jobs)) ∧
    (∀ (jobs : Jobs) (ts : Bool) (fn id ca l : String),
        l ∉ supportedLanguagesList →
        transcribe_audio_async jobs "canary" (some l) ts fn id ca =
          (.error ⟨400, "Unsupported language: " ++ l ++
              ". Supported: ['de', 'en', 'es', 'fr']"⟩, jobs)) ∧
    (∀ (jobs : Jobs) (model : String) (lang : Option String) (ts : Bool)
        (fn id ca : String), model ∈ supportedModelKeys →
        (model = "canary" → ∀ l, lang = some l → l ∈ supportedLanguagesList) →
        pySuffixLower fn ∉ audioExtensionsList →
        transcribe_audio_async jobs model lang ts fn id ca =
          (.error ⟨400,
              "Unsupported file format. Supported: .wav, .mp3, .flac"⟩,
           jobs)) ∧
    (∀ (jobs : Jobs) (model : String) (lang : Option String) (ts : Bool)
        (fn id ca : String), model ∈ supportedModelKeys →
        (model = "canary" → ∀ l, lang = some l → l ∈ supportedLanguagesList) →
        pySuffixLower fn ∈ audioExtensionsList →
        transcribe_audio_async jobs model lang ts fn id ca =
          (.ok (⟨id, .pending, "Transcription job started for " ++ fn⟩,
                ⟨id, fn, model,
                 if model = "canary" ∧ lang = none then some "en" else lang,
                 ts⟩),
           (id, ⟨id, .pending, fn, ca, none, none, none⟩) :: jobs)) := by
  refine ⟨?_, ?_, ?_, ?_⟩
  · intro jobs model lang ts fn id ca h
    simp [transcribe_audio_async, h]
  · intro jobs ts fn id ca l h
    simp [transcribe_audio_async, supportedModelKeys, h]
  · intro jobs model lang ts fn id ca hm hl hx
    have hle : (if model = "canary" then
        match lang with
        | some l =>
            if l ∈ supportedLanguagesList then none
            else some (⟨400, "Unsupported language: " ++ l ++
                ". Supported: ['de', 'en', 'es', 'fr']"⟩ : HTTPError)
        | none => none
      else none) = none := by
      by_cases hc : model = "canary"
      · rcases hlv : lang with _ | l
        · simp [hc, hlv]
        · simp [hc, hlv, hl hc l hlv]
      · simp [hc]
    simp [transcribe_audio_async, hm, hle, hx]
  · intro jobs model lang ts fn id ca hm hl hx
    have hle : (if model = "canary" then
        match lang with
        | some l =>
            if l ∈ supportedLanguagesList then none
            else some (⟨400, "Unsupported language: " ++ l ++
                ". Supported: ['de', 'en', 'es', 'fr']"⟩ : HTTPError)
        | none => none
      else none) = none := by
      by_cases hc : model = "canary"
      · rcases hlv : lang with _ | l
        · simp [hc, hlv]
        · simp [hc, hlv, hl hc l hlv]
      · simp [hc]
    simp [transcribe_audio_async, hm, hle, hx]

/-- C7, witness: an unknown model is rejected with no job created; a
valid canary submission with no language defaults to en and inserts a
pending job. -/
theorem C7_submission_validation_witness :
    transcribe_audio_async [] "unknown-model" none true "a.wav" "j1" "t0" =
      (.error ⟨400, "Unsupported model: unknown-model" ++
          ". Supported: ['parakeet', 'canary']"⟩, []) ∧
    transcribe_audio_async [] "canary" none true "b.MP3" "j2" "t0" =
      (.ok (⟨"j2", .pending, "Transcription job started for b.MP3"⟩,
            ⟨"j2", "b.MP3", "canary", some "en", true⟩),
       [("j2", ⟨"j2", .pending, "b.MP3", "t0", none, none, none⟩)]) := by
  constructor
  · exact C7_submission_validation.1 [] "unknown-model" none true
      "a.wav" "j1" "t0" (by decide)
  · have h := C7_submission_validation.2.2.2 [] "canary" none true
      "b.MP3" "j2" "t0" (by decide)
      (fun _ l hl => by cases hl) (by decide)
    simpa using h

/-! ### Claims C5, C6 and C8 -/

/-- Once the task has returned and the job is terminal, nothing moves. -/
theorem runM_done_terminal (env : Env) (s : MState) (hpc : s.pc = .done)
    (ht : isTerminal s.job.status = true) :
    ∀ moves, runM env moves s = s
  | [] => rfl
  | m :: ms => by
      have hstep : stepM env m s = s := by
        cases m with
        | proc => simp [stepM, procStep, hpc]
        | cancel now => simp [stepM, cancelStep, ht]
      calc runM env (m :: ms) s = runM env ms (stepM env m s) := rfl
        _ = runM env ms s := by rw [hstep]
        _ = s := runM_done_terminal env s hpc ht ms

/-- C5, confirmed: when any stage of an (uncancelled) background run
raises — audio conversion, model loading, model invocation or
output-shape handling — the exception is caught rather than crashing the
task (the run still reaches `done`), the job ends `failed` with
`completed_at` set, the `error` field is the exception type and text, and
no result is stored. -/
theorem C5_failure_handling (env : Env) (id fn created : String)
    (e : ExcInfo) (h : firstExc env = some e) :
    (finalState env movesProc8 id fn created).job.status = .failed ∧
    (finalState env movesProc8 id fn created).job.completed_at =
      some env.nowP ∧
    (finalState env movesProc8 id fn created).job.error =
      some (e.name ++ ": " ++ e.text) ∧
    (finalState env movesProc8 id fn created).job.result = none ∧
    (finalState env movesProc8 id fn created).pc = .done := by
  by_cases hwc : env.isWav = false ∧ env.convertResult = none
  · obtain ⟨hw, hcv⟩ := hwc
    rw [firstExc, if_pos ⟨hw, hcv⟩] at h
    simp only [Option.some.injEq] at h
    subst h
    simp [finalState, movesProc8, runM, stepM, procStep, initState, hw, hcv]
  · rw [firstExc, if_neg hwc] at h
    cases hw : env.isWav with
    | false =>
        have hne : env.convertResult ≠ none := fun hc => hwc ⟨hw, hc⟩
        rcases hcv : env.convertResult with _ | p
        · exact absurd hcv hne
        · rcases hl : env.loadOutcome with eL | u
          · simp only [hl, Option.some.injEq] at h
            subst h
            simp [finalState, movesProc8, runM, stepM, procStep, initState,
              hw, hcv, hl]
          · rcases htr : env.transcribeOutcome with eT | out
            · simp only [hl, htr, Option.some.injEq] at h
              subst h
              simp [finalState, movesProc8, runM, stepM, procStep, initState,
                hw, hcv, hl, htr]
            · rcases hx : extractResult out with eX | pr
              · simp only [hl, htr, hx, Option.some.injEq] at h
                subst h
                simp [finalState, movesProc8, runM, stepM, procStep,
                  initState, hw, hcv, hl, htr, hx]
              · simp [hl, htr, hx] at h
    | true =>
        rcases hl : env.loadOutcome with eL | u
        · simp only [hl, Option.some.injEq] at h
          subst h
          simp [finalState, movesProc8, runM, stepM, procStep, initState,
            hw, hl]
        · rcases htr : env.transcribeOutcome with eT | out
          · simp only [hl, htr, Option.some.injEq] at h
            subst h
            simp [finalState, movesProc8, runM, stepM, procStep, initState,
              hw, hl, htr]
          · rcases hx : extractResult out with eX | pr
            · simp only [hl, htr, hx, Option.some.injEq] at h
              subst h
              simp [finalState, movesProc8, runM, stepM, procStep, initState,
                hw, hl, htr, hx]
            · simp [hl, htr, hx] at h

/-- C5, witness: a model call raising RuntimeError leaves the job failed
with the rendered message, evaluated on a concrete run. -/
theorem C5_failure_handling_witness :
    (finalState envErr movesProc8 "j" "a.wav" "t0").job.status = .failed ∧
    (finalState envErr movesProc8 "j" "a.wav" "t0").job.error =
      some ("RuntimeError" ++ ": " ++ "CUDA out of memory") := by
  have h := C5_failure_handling envErr "j" "a.wav" "t0"
    ⟨"RuntimeError", "CUDA out of memory"⟩ (by decide)
  exact ⟨h.1, h.2.2.1⟩

/-- C6, confirmed: when the job is already cancelled as the background
task starts, any interleaving of the task and further cancel requests
leaves the record exactly as it was, performs no audio conversion and no
model invocation, and (as soon as the task takes its first step) removes
the temporary input file. -/
theorem C6_cancelled_before_start (env : Env) (moves : List Move)
    (j : JobInfo) (h : j.status = .cancelled) :
    (runM env moves ⟨j, .start, none, []⟩).job = j ∧
    Effect.convertCall ∉ (runM env moves ⟨j, .start, none, []⟩).effects ∧
    Effect.modelInvoke ∉ (runM env moves ⟨j, .start, none, []⟩).effects ∧
    (Move.proc ∈ moves →
      Effect.cleanup env.audioPath ∈
        (runM env moves ⟨j, .start, none, []⟩).effects) := by
  induction moves with
  | nil => exact ⟨rfl, by simp [runM], by simp [runM], by simp⟩
  | cons m ms ih =>
      cases m with
      | cancel now =>
          have hstep : stepM env (.cancel now) ⟨j, .start, none, []⟩ =
              ⟨j, .start, none, []⟩ := by
            simp [stepM, cancelStep, isTerminal, h]
          have hrun : runM env (.cancel now :: ms) ⟨j, .start, none, []⟩ =
              runM env ms ⟨j, .start, none, []⟩ := by
            calc runM env (.cancel now :: ms) ⟨j, .start, none, []⟩ =
                runM env ms (stepM env (.cancel now) ⟨j, .start, none, []⟩) :=
                  rfl
              _ = runM env ms ⟨j, .start, none, []⟩ := by rw [hstep]
          rw [hrun]
          refine ⟨ih.1, ih.2.1, ih.2.2.1, ?_⟩
          intro hmem
          exact ih.2.2.2 (by simpa using hmem)
      | proc =>
          have hstep : stepM env .proc ⟨j, .start, none, []⟩ =
              ⟨j, .done, none,
               [.cleanup env.audioPath, .cleanup env.audioPath]⟩ := by
            simp [stepM, procStep, h, finallyCleanups]
          have hfix : runM env ms
              (⟨j, .done, none,
                [.cleanup env.audioPath, .cleanup env.audioPath]⟩ : MState) =
              ⟨j, .done, none,
               [.cleanup env.audioPath, .cleanup env.audioPath]⟩ :=
            runM_done_terminal env _ rfl (by simp [isTerminal, h]) ms
          have hrun : runM env (.proc :: ms) ⟨j, .start, none, []⟩ =
              ⟨j, .done, none,
               [.cleanup env.audioPath, .cleanup env.audioPath]⟩ := by
            calc runM env (.proc :: ms) ⟨j, .start, none, []⟩ =
                runM env ms (stepM env .proc ⟨j, .start, none, []⟩) := rfl
              _ = _ := by rw [hstep, hfix]
          rw [hrun]
          exact ⟨rfl, by simp, by simp, fun _ => by simp⟩

/-- C6, witness: a job cancelled before the task starts is untouched by a
task step and only the input file is cleaned up. -/
theorem C6_cancelled_before_start_witness :
    (runM envOk [Move.proc]
        ⟨⟨"j", .cancelled, "a.wav", "t0", some "t1", none, none⟩,
         .start, none, []⟩).job =
      ⟨"j", .cancelled, "a.wav", "t0", some "t1", none, none⟩ ∧
    Effect.cleanup "/tmp/up.wav" ∈
      (runM envOk [Move.proc]
        ⟨⟨"j", .cancelled, "a.wav", "t0", some "t1", none, none⟩,
         .start, none, []⟩).effects := by
  have h := C6_cancelled_before_start envOk [Move.proc]
    ⟨"j", .cancelled, "a.wav", "t0", some "t1", none, none⟩ rfl
  exact ⟨h.1, h.2.2.2 (by simp)⟩

/-- The cleanup obligation carried by the machine: once the task has
returned, the uploaded file was removed, and so was the converted file if
one was produced. -/
def cleanupsDone (env : Env) (s : MState) : Prop :=
  s.pc = .done →
    Effect.cleanup env.audioPath ∈ s.effects ∧
      ∀ p, s.tempWav = some p → Effect.cleanup p ∈ s.effects

/-- The effects list of a state that just appended the exit cleanups
satisfies the cleanup obligation. -/
theorem cleanupsDone_exit (env : Env) (s : MState) (extra : List Effect)
    (hsub : ∀ x, x ∈ finallyCleanups env.audioPath s.tempWav → x ∈ extra) :
    Effect.cleanup env.audioPath ∈ s.effects ++ extra ∧
      ∀ p, s.tempWav = some p →
        Effect.cleanup p ∈ s.effects ++ extra := by
  constructor
  · exact List.mem_append_right _ (hsub _ (by simp [finallyCleanups]))
  · intro p hp
    exact List.mem_append_right _ (hsub _ (by simp [finallyCleanups, hp]))

theorem stepM_cleanupsDone (env : Env) (m : Move) (s : MState)
    (h : cleanupsDone env s) : cleanupsDone env (stepM env m s) := by
  cases m with
  | cancel now =>
      have he : (stepM env (.cancel now) s).effects = s.effects := by
        by_cases ht : isTerminal s.job.status <;> simp [stepM, cancelStep, ht]
      have htw : (stepM env (.cancel now) s).tempWav = s.tempWav := by
        by_cases ht : isTerminal s.job.status <;> simp [stepM, cancelStep, ht]
      have hpcq : (stepM env (.cancel now) s).pc = s.pc := by
        by_cases ht : isTerminal s.job.status <;> simp [stepM, cancelStep, ht]
      intro hd
      rw [hpcq] at hd
      rw [he, htw]
      exact h hd
  | proc =>
      cases hpc : s.pc with
      | start =>
          by_cases hc : s.job.status = .cancelled <;> intro hd
          · have hs : stepM env .proc s =
                { s with pc := .done,
                         effects := s.effects ++
                           (.cleanup env.audioPath ::
                             finallyCleanups env.audioPath s.tempWav) } := by
              simp [stepM, procStep, hpc, hc]
            rw [hs]
            exact cleanupsDone_exit env s _ (fun x hx => by simp [hx])
          · exfalso
            simp [stepM, procStep, hpc, hc] at hd
      | beforeConvert =>
          intro hd
          exfalso
          by_cases hw : env.isWav
          · simp [stepM, procStep, hpc, hw] at hd
          · rcases hcv : env.convertResult with _ | p <;>
              simp [stepM, procStep, hpc, hw, hcv] at hd
      | beforeCP2 =>
          by_cases hc : s.job.status = .cancelled <;> intro hd
          · have hs : stepM env .proc s =
                { s with pc := .done,
                         effects := s.effects ++
                           (finallyCleanups env.audioPath s.tempWav ++
                            finallyCleanups env.audioPath s.tempWav) } := by
              simp [stepM, procStep, hpc, hc]
            rw [hs]
            exact cleanupsDone_exit env s _ (fun x hx => by simp [hx])
          · exfalso
            simp [stepM, procStep, hpc, hc] at hd
      | beforeTranscribe =>
          intro hd
          exfalso
          rcases hl : env.loadOutcome with eL | u
          · simp [stepM, procStep, hpc, hl] at hd
          · rcases htr : env.transcribeOutcome with eT | out <;>
              simp [stepM, procStep, hpc, hl, htr] at hd
      | beforeCP3 out =>
          by_cases hc : s.job.status = .cancelled <;> intro hd
          · have hs : stepM env .proc s =
                { s with pc := .done,
                         effects := s.effects ++
                           (finallyCleanups env.audioPath s.tempWav ++
                            finallyCleanups env.audioPath s.tempWav) } := by
              simp [stepM, procStep, hpc, hc]
            rw [hs]
            exact cleanupsDone_exit env s _ (fun x hx => by simp [hx])
          · exfalso
            simp [stepM, procStep, hpc, hc] at hd
      | beforeExtract out =>
          intro hd
          exfalso
          rcases hx : extractResult out with eX | pr <;>
            simp [stepM, procStep, hpc, hx] at hd
      | beforeCommit t segs =>
          intro hd
          have he : (stepM env .proc s).effects =
              s.effects ++ finallyCleanups env.audioPath s.tempWav := by
            simp [stepM, procStep, hpc]
          have htw : (stepM env .proc s).tempWav = s.tempWav := by
            simp [stepM, procStep, hpc]
          rw [he, htw]
          exact cleanupsDone_exit env s _ (fun x hx => hx)
      | raised e =>
          intro hd
          have he : (stepM env .proc s).effects =
              s.effects ++ finallyCleanups env.audioPath s.tempWav := by
            simp [stepM, procStep, hpc]
          have htw : (stepM env .proc s).tempWav = s.tempWav := by
            simp [stepM, procStep, hpc]
          rw [he, htw]
          exact cleanupsDone_exit env s _ (fun x hx => hx)
      | done =>
          have hs : stepM env .proc s = s := by
            simp [stepM, procStep, hpc]
          rw [hs]
          exact h

theorem runM_cleanupsDone (env : Env) :
    ∀ (moves : List Move) (s : MState), cleanupsDone env s →
      cleanupsDone env (runM env moves s)
  | [], _, h => h
  | m :: ms, s, h =>
      runM_cleanupsDone env ms (stepM env m s) (stepM_cleanupsDone env m s h)

/-- C8, confirmed: (1) on every exit path of the background task —
success, failure, or cancellation at any checkpoint, under any
interleaving — the temporary uploaded file is removed, and so is the
intermediate converted file whenever one was produced; (2) `cleanup_file`
swallows filesystem errors: when its body raises, it returns normally and
leaves the filesystem as it was. -/
theorem C8_unconditional_cleanup :
    (∀ (env : Env) (moves : List Move) (id fn created : String),
        (finalState env moves id fn created).pc = .done →
          Effect.cleanup env.audioPath ∈
            (finalState env moves id fn created).effects ∧
          ∀ p, (finalState env moves id fn created).tempWav = some p →
            Effect.cleanup p ∈
              (finalState env moves id fn created).effects) ∧
    (∀ (fs : FS) (p : Path) (e : ExcInfo),
        cleanup_file_body fs p = .error e → cleanup_file fs p = fs) := by
  constructor
  · intro env moves id fn created
    exact runM_cleanupsDone env moves (initState id fn created)
      (fun hd => absurd hd (by simp [initState]))
  · intro fs p e h
    simp [cleanup_file, h]

/-- C8, witness: a successful concrete run cleaned up its input file, and
a failing unlink is swallowed leaving the filesystem unchanged. -/
theorem C8_unconditional_cleanup_witness :
    Effect.cleanup "/tmp/up.wav" ∈
      (finalState envOk movesProc8 "j" "a.wav" "t0").effects ∧
    cleanup_file ⟨["x"], ["x"]⟩ "x" = ⟨["x"], ["x"]⟩ :=
  ⟨(C8_unconditional_cleanup.1 envOk movesProc8 "j" "a.wav" "t0"
      (by decide)).1,
   C8_unconditional_cleanup.2 ⟨["x"], ["x"]⟩ "x"
     ⟨"OSError", "unlink failed"⟩ (by rfl)⟩

/-! ### Claim C9 -/

theorem pyMod_eq_fract (a : ℚ) {b : ℚ} (hb : b ≠ 0) :
    pyMod a b = b * Int.fract (a / b) := by
  unfold pyMod Int.fract
  field_simp

theorem pyMod_nonneg (a : ℚ) {b : ℚ} (hb : 0 < b) : 0 ≤ pyMod a b := by
  rw [pyMod_eq_fract a hb.ne']
  exact mul_nonneg hb.le (Int.fract_nonneg _)

theorem pyMod_lt (a : ℚ) {b : ℚ} (hb : 0 < b) : pyMod a b < b := by
  rw [pyMod_eq_fract a hb.ne']
  calc b * Int.fract (a / b) < b * 1 :=
        (mul_lt_mul_left hb).mpr (Int.fract_lt_one _)
    _ = b := mul_one b

theorem pyInt_of_nonneg {q : ℚ} (h : 0 ≤ q) : pyInt q = ⌊q⌋ := if_pos h

theorem pyInt_pyFloorDiv (s : ℚ) {b : ℚ} (hs : 0 ≤ s) (hb : 0 < b) :
    pyInt (pyFloorDiv s b) = ⌊s / b⌋ := by
  have hk : (0 : ℤ) ≤ ⌊s / b⌋ := Int.floor_nonneg.mpr (div_nonneg hs hb.le)
  rw [pyFloorDiv, pyInt_of_nonneg (by exact_mod_cast hk)]
  exact Int.floor_intCast _

/-- Zero padding to width `w` of a nonnegative integer gives at least `w`
characters, and exactly `w` when the decimal form fits. -/
theorem pyZeroPad_length {n : Int} (w : Nat) (hn : 0 ≤ n) :
    w ≤ (pyZeroPad w n).length ∧
      ((toString n.toNat).length ≤ w → (pyZeroPad w n).length = w) := by
  have hlt : ¬ n < 0 := not_lt.mpr hn
  have habs : n.natAbs = n.toNat := by omega
  unfold pyZeroPad
  rw [if_neg hlt, if_neg hlt, habs]
  have hlen : (String.mk (List.replicate
      (w - (toString n.toNat).length) '0') ++ toString n.toNat).length =
      (w - (toString n.toNat).length) + (toString n.toNat).length := by
    rw [String.length_append]
    have hmk : (String.mk (List.replicate
        (w - (toString n.toNat).length) '0')).length =
        w - (toString n.toNat).length := by
      show (List.replicate (w - (toString n.toNat).length) '0').length = _
      exact List.length_replicate _ _
    rw [hmk]
  rw [hlen]
  omega

/-- Decimal form of a natural below `10 ^ e` has at most `e` digits. -/
theorem toString_nat_length_le (n : Nat) (e : Nat) (he : 0 < e)
    (h : n < 10 ^ e) : (toString n).length ≤ e :=
  Nat.repr_length n e he h

/-- C9, counterexample: the claim that the rendering has the form
`HH:MM:SS,mmm` with two-digit zero-padded hours for every non-negative
duration fails at 100 hours: the hour field has three digits and the
string has 13 characters instead of 12. -/
theorem C9_counterexample :
    seconds_to_srt_time 360000 = "100:00:00,000" ∧
      (seconds_to_srt_time 360000).length ≠ 12 := by
  have h : seconds_to_srt_time 360000 = "100:00:00,000" := by
    unfold seconds_to_srt_time pyInt pyFloorDiv pyMod
    norm_num
    decide
  exact ⟨h, by rw [h]; decide⟩

/-- C9, amended: the CLI variants name their outputs
`{timestamp}_{basename}.{txt,srt}` (with an extra `_{language}` in the
multilingual variant), and for every non-negative duration the SRT
rendering is `H:MM:SS,mmm` where hours = floor(s/3600) is zero-padded to
at least two digits (exactly two whenever the duration is below 100
hours), minutes = floor((s mod 3600)/60) and seconds = floor(s mod 60)
are exactly two digits, and milliseconds = floor(1000 (s mod 1)) is
exactly three digits. -/
theorem C9_amended_outputs :
    (∀ ts base, save_outputs_names ts base =
      (ts ++ "_" ++ base ++ ".txt", ts ++ "_" ++ base ++ ".srt")) ∧
    (∀ ts base lang, save_outputs_names_scenario3 ts base lang =
      (ts ++ "_" ++ base ++ "_" ++ lang ++ ".txt",
       ts ++ "_" ++ base ++ "_" ++ lang ++ ".srt")) ∧
    (∀ s : ℚ, 0 ≤ s →
      seconds_to_srt_time s =
        pyZeroPad 2 ⌊s / 3600⌋ ++ ":" ++ pyZeroPad 2 ⌊pyMod s 3600 / 60⌋ ++
          ":" ++ pyZeroPad 2 ⌊pyMod s 60⌋ ++ "," ++
          pyZeroPad 3 ⌊pyMod s 1 * 1000⌋ ∧
      (pyZeroPad 2 ⌊pyMod s 3600 / 60⌋).length = 2 ∧
      (pyZeroPad 2 ⌊pyMod s 60⌋).length = 2 ∧
      (pyZeroPad 3 ⌊pyMod s 1 * 1000⌋).length = 3 ∧
      2 ≤ (pyZeroPad 2 ⌊s / 3600⌋).length ∧
      (⌊s / 3600⌋ < 100 → (pyZeroPad 2 ⌊s / 3600⌋).length = 2)) := by
  refine ⟨fun ts base => rfl, fun ts base lang => rfl, fun s hs => ?_⟩
  have h3600 : (0 : ℚ) < 3600 := by norm_num
  have h60 : (0 : ℚ) < 60 := by norm_num
  have h1 : (0 : ℚ) < 1 := by norm_num
  have hmin0 : (0 : ℤ) ≤ ⌊pyMod s 3600 / 60⌋ :=
    Int.floor_nonneg.mpr (div_nonneg (pyMod_nonneg s h3600) h60.le)
  have hmin60 : ⌊pyMod s 3600 / 60⌋ < 60 := by
    rw [Int.floor_lt]
    rw [div_lt_iff₀ h60]
    calc pyMod s 3600 < 3600 := pyMod_lt s h3600
      _ = (60 : ℤ) * 60 := by norm_num
  have hsec0 : (0 : ℤ) ≤ ⌊pyMod s 60⌋ :=
    Int.floor_nonneg.mpr (pyMod_nonneg s h60)
  have hsec60 : ⌊pyMod s 60⌋ < 60 := by
    rw [Int.floor_lt]
    exact_mod_cast pyMod_lt s h60
  have hms0 : (0 : ℤ) ≤ ⌊pyMod s 1 * 1000⌋ :=
    Int.floor_nonneg.mpr (mul_nonneg (pyMod_nonneg s h1) (by norm_num))
  have hms1000 : ⌊pyMod s 1 * 1000⌋ < 1000 := by
    rw [Int.floor_lt]
    calc pyMod s 1 * 1000 < 1 * 1000 := by
          exact (mul_lt_mul_right (by norm_num)).mpr (pyMod_lt s h1)
      _ = ((1000 : ℤ) : ℚ) := by norm_num
  have hh0 : (0 : ℤ) ≤ ⌊s / 3600⌋ :=
    Int.floor_nonneg.mpr (div_nonneg hs h3600.le)
  refine ⟨?_, ?_, ?_, ?_, ?_, ?_⟩
  · unfold seconds_to_srt_time
    rw [pyInt_pyFloorDiv s hs h3600,
      pyInt_pyFloorDiv (pyMod s 3600) (pyMod_nonneg s h3600) h60,
      pyInt_of_nonneg (pyMod_nonneg s h60),
      pyInt_of_nonneg (mul_nonneg (pyMod_nonneg s h1) (by norm_num))]
  · refine (pyZeroPad_length 2 hmin0).2 (toString_nat_length_le _ 2
      (by norm_num) ?_)
    omega
  · refine (pyZeroPad_length 2 hsec0).2 (toString_nat_length_le _ 2
      (by norm_num) ?_)
    omega
  · refine (pyZeroPad_length 3 hms0).2 (toString_nat_length_le _ 3
      (by norm_num) ?_)
    omega
  · exact (pyZeroPad_length 2 hh0).1
  · intro hlt
    refine (pyZeroPad_length 2 hh0).2 (toString_nat_length_le _ 2
      (by norm_num) ?_)
    omega

/-- C9 amended, witness: 100 seconds render as one minute forty. -/
theorem C9_amended_outputs_witness :
    seconds_to_srt_time 100 = "00:01:40,000" := by
  have h := (C9_amended_outputs.2.2 100 (by norm_num)).1
  rw [h]
  unfold pyMod
  norm_num
  decide

end NvidiaTranscribe
